import Mathlib

/-!
Verification of the mask-to-submission pipeline of `make_submission.py`.

The file shallowly embeds the pipeline: probability masks are 3D arrays of
rationals, thresholding produces boolean masks, `get_polygons` extracts one
polygon collection per class and rescales it by the reciprocal of the image
scalers, and `get_poly_data` assembles the per-image submission rows,
substituting ground-truth WKT when it exists.  External collaborators
(ground-truth table, raster-to-vector tracing, scaler computation, WKT
encoding, model inference) are abstract function parameters collected in
`Env`, matching the spec's interface-only treatment of them.
-/

/-- A multi-polygon as a list of rings, each ring a list of rational
coordinate pairs.  Only the coordinates matter for the scaling step. -/
def MultiPoly : Type := List (List (ℚ × ℚ))

instance : DecidableEq MultiPoly := by
  unfold MultiPoly; infer_instance

/-- Shapely scaling `shapely.affinity.scale(polygons, xfact, yfact,
origin=(0, 0, 0))`: every coordinate pair `(x, y)` becomes `(x * xfact, y * yfact)`. -/
def scalePoly (xfact yfact : ℚ) (p : MultiPoly) : MultiPoly :=
  p.map (List.map fun q => (q.1 * xfact, q.2 * yfact))

/-- A per-image probability mask: 3D numeric array of shape
`(height, width, channels)`, `mask.shape[-1] = channels`. -/
structure ProbabilityMask where
  height : Nat
  width : Nat
  channels : Nat
  data : Nat → Nat → Nat → ℚ

/-- A thresholded 3D boolean mask, same shape as the probability mask. -/
structure BooleanMask where
  height : Nat
  width : Nat
  channels : Nat
  data : Nat → Nat → Nat → Bool

/-- A single-class 2D boolean mask, as passed to `utils.mask_to_polygons`. -/
structure BooleanMask2 where
  height : Nat
  width : Nat
  data : Nat → Nat → Bool

/-- Thresholding `mask > threshold` on a numpy array: elementwise strict
comparison. -/
def booleanize (m : ProbabilityMask) (threshold : ℚ) : BooleanMask :=
  { height := m.height, width := m.width, channels := m.channels,
    data := fun i j k => decide (threshold < m.data i j k) }

/-- Channel selection `mask[:, :, cls_idx]` of one class of a boolean mask. -/
def channel (m : BooleanMask) (cls_idx : Nat) : BooleanMask2 :=
  { height := m.height, width := m.width, data := fun i j => m.data i j cls_idx }

/-- External collaborators of the pipeline, specified at their interfaces:
`utils.get_wkt_data` (ground-truth table, per image a dict from PolygonType
to WKT, modelled as an association list), `utils.mask_to_polygons`
(raster-to-vector tracing at a simplification tolerance),
`utils.get_scalers` (per-image x/y scaler pair for a mask size), and
`shapely.wkt.dumps` (WKT encoding). -/
structure Env where
  wktData : String → Option (List (Int × String))
  maskToPolygons : BooleanMask2 → ℚ → MultiPoly
  getScalers : String → Nat × Nat → ℚ × ℚ
  wktDumps : MultiPoly → String

/-- Python-dict insertion into an association list: replace the value in
place if the key is present, append otherwise (insertion order kept). -/
def dictInsert {α : Type} (l : List (Int × α)) (k : Int) (v : α) :
    List (Int × α) :=
  match l with
  | [] => [(k, v)]
  | p :: ps => if p.1 = k then (k, v) :: ps else p :: dictInsert ps k v

/-- Insert a key-value pair into a key-sorted association list. -/
def insertByKey {α : Type} (p : Int × α) : List (Int × α) → List (Int × α)
  | [] => [p]
  | q :: qs => if p.1 ≤ q.1 then p :: q :: qs else q :: insertByKey p qs

/-- Python `sorted(d.items())`: sort an association list by key. -/
def sortByKey {α : Type} : List (Int × α) → List (Int × α)
  | [] => []
  | p :: ps => insertByKey p (sortByKey ps)

/-- The extractor `get_polygons(im_id, mask, epsilon, classes)`: compute the image's
scaler pair for the mask size, invert it, assert that the class count
matches the mask's channel count (`none` models the fatal assertion
failure), and for each class at position `cls_idx` trace polygons from
channel `cls_idx` and store them, scaled by the inverted pair, under key
`cls + 1` of the insertion-ordered dict. -/
def get_polygons (env : Env) (im_id : String) (mask : BooleanMask)
    (epsilon : ℚ) (classes : List Int) : Option (List (Int × MultiPoly)) :=
  let im_size := (mask.height, mask.width)
  let s := env.getScalers im_id im_size
  let x_scaler := 1 / s.1
  let y_scaler := 1 / s.2
  if classes.length = mask.channels then
    some (classes.enum.foldl
      (fun acc p =>
        dictInsert acc (p.2 + 1)
          (scalePoly x_scaler y_scaler
            (env.maskToPolygons (channel mask p.1) epsilon)))
      [])
  else none

/-- The ground-truth branch of `get_poly_data`'s row construction:
`[(im_id, str(cls + 1), train_polygons[cls + 1]) for cls in classes]`,
where a missing dict key raises (modelled by `none`). -/
def gtRows (im_id : String) (tp : List (Int × String)) :
    List Int → Option (List (String × String × String))
  | [] => some []
  | cls :: rest =>
    match List.lookup (cls + 1) tp with
    | none => none
    | some w =>
      (gtRows im_id tp rest).map fun rs => (im_id, toString (cls + 1), w) :: rs

/-- The per-image task `get_poly_data(im_id, store, classes, threshold,
epsilon)`: if the
cached mask is absent return one `MULTIPOLYGON EMPTY` row per class;
otherwise threshold the mask, extract polygons, and either substitute the
verbatim ground-truth WKT (when the ground-truth dict for the image exists
and is non-empty) or dump the extracted polygons sorted by PolygonType.
`none` models an uncaught exception (assertion failure or missing key). -/
def get_poly_data (env : Env) (store : String → Option ProbabilityMask)
    (im_id : String) (classes : List Int) (threshold epsilon : ℚ) :
    Option (List (String × String × String)) :=
  match store im_id with
  | none => some (classes.map fun cls =>
      (im_id, toString (cls + 1), "MULTIPOLYGON EMPTY"))
  | some pmask =>
    let mask := booleanize pmask threshold
    match get_polygons env im_id mask epsilon classes with
    | none => none
    | some poly_by_type =>
      match env.wktData im_id with
      | some tp =>
        if tp = [] then
          some ((sortByKey poly_by_type).map fun p =>
            (im_id, toString p.1, env.wktDumps p.2))
        else gtRows im_id tp classes
      | none =>
        some ((sortByKey poly_by_type).map fun p =>
          (im_id, toString p.1, env.wktDumps p.2))

/-- The mask-production loop of `main`: for each image id in order, skip it
when the store already holds its mask, otherwise run inference and save the
result.  Returns the final store and the list of ids inference ran on. -/
def maskPhase (predict : String → ProbabilityMask) :
    (String → Option ProbabilityMask) → List String →
    (String → Option ProbabilityMask) × List String
  | store, [] => (store, [])
  | store, im_id :: rest =>
    match store im_id with
    | some _ => maskPhase predict store rest
    | none =>
      let store' := fun j => if j = im_id then some (predict im_id) else store j
      let r := maskPhase predict store' rest
      (r.1, im_id :: r.2)

/-- The comprehension `[im_id for im_id, cls, _ in reader if cls == '1']`:
image ids whose
input-table row carries ClassLabel `"1"`. -/
def imageIdsFromSample (rows : List (String × String × String)) :
    List String :=
  rows.filterMap fun r => if r.2.1 = "1" then some r.1 else none

/-- Target resolution `train_ids if args.train_only else set(only or
image_ids)`: resolve the
target identifier set (Python `set` modelled as `List.dedup`). -/
def resolveTargets (trainOnly : Bool) (only : List String)
    (trainIds : List String) (rows : List (String × String × String)) :
    List String :=
  if trainOnly then trainIds.dedup
  else if only = [] then (imageIdsFromSample rows).dedup
  else only.dedup

/-- Concrete 3D boolean mask with two channels, for witnesses. -/
def bm2 : BooleanMask :=
  { height := 1, width := 1, channels := 2, data := fun _ _ _ => true }

/-- Concrete probability mask with two channels, for witnesses. -/
def pm2 : ProbabilityMask :=
  { height := 1, width := 1, channels := 2, data := fun _ _ _ => 1 }

/-- Concrete environment whose ground-truth table has keys 1 and 2. -/
def envGT : Env where
  wktData := fun _ => some [(1, "GTA"), (2, "GTB")]
  maskToPolygons := fun _ _ => [[(2, 3)]]
  getScalers := fun _ _ => (2, 4)
  wktDumps := fun _ => "W"

/-- Store where every image has a cached mask. -/
def storeAll : String → Option ProbabilityMask := fun _ => some pm2

/-- Store with no cached masks. -/
def storeNone : String → Option ProbabilityMask := fun _ => none

theorem dictInsert_of_not_mem {α : Type} (l : List (Int × α)) (k : Int) (v : α)
    (h : k ∉ l.map Prod.fst) : dictInsert l k v = l ++ [(k, v)] := by
  induction l with
  | nil => rfl
  | cons p ps ih =>
    simp only [List.map_cons, List.mem_cons] at h
    push_neg at h
    have hk : ¬ p.1 = k := fun hh => h.1 hh.symm
    simp [dictInsert, hk, ih h.2]

theorem foldl_dictInsert {α : Type} (pairs : List (Int × α)) :
    ∀ acc : List (Int × α), ((acc ++ pairs).map Prod.fst).Nodup →
      pairs.foldl (fun a q => dictInsert a q.1 q.2) acc = acc ++ pairs := by
  induction pairs with
  | nil => intro acc _; simp
  | cons q qs ih =>
    intro acc hd
    have hnot : q.1 ∉ acc.map Prod.fst := by
      intro hmem
      rw [List.map_append] at hd
      rcases List.nodup_append.mp hd with ⟨_, _, hdisj⟩
      exact hdisj hmem (by simp)
    rw [List.foldl_cons, dictInsert_of_not_mem _ _ _ hnot]
    have hd2 : (((acc ++ [q]) ++ qs).map Prod.fst).Nodup := by
      have : (acc ++ [q]) ++ qs = acc ++ q :: qs := by simp
      rw [this]; exact hd
    have := ih (acc ++ [q]) hd2
    simpa using this

theorem get_polygons_def (env : Env) (im_id : String) (mask : BooleanMask)
    (epsilon : ℚ) (classes : List Int) :
    get_polygons env im_id mask epsilon classes =
      if classes.length = mask.channels then
        some (classes.enum.foldl
          (fun acc p =>
            dictInsert acc (p.2 + 1)
              (scalePoly (1 / (env.getScalers im_id (mask.height, mask.width)).1)
                (1 / (env.getScalers im_id (mask.height, mask.width)).2)
                (env.maskToPolygons (channel mask p.1) epsilon)))
          [])
      else none := rfl

theorem enum_keys_eq (classes : List Int) :
    (classes.enum.map fun p => p.2 + 1) = classes.map (· + 1) := by
  rw [show (fun p : Nat × Int => p.2 + 1) = (fun c : Int => c + 1) ∘ Prod.snd from rfl,
    ← List.map_map, List.enum_map_snd]

theorem get_polygons_eq (env : Env) (im_id : String) (mask : BooleanMask)
    (epsilon : ℚ) (classes : List Int)
    (hn : classes.Nodup) (hc : classes.length = mask.channels) :
    get_polygons env im_id mask epsilon classes =
      some (classes.enum.map fun p =>
        (p.2 + 1,
          scalePoly (1 / (env.getScalers im_id (mask.height, mask.width)).1)
            (1 / (env.getScalers im_id (mask.height, mask.width)).2)
            (env.maskToPolygons (channel mask p.1) epsilon))) := by
  rw [get_polygons_def, if_pos hc]
  congr 1
  have hfold := (List.foldl_map
    (fun p : Nat × Int =>
      ((p.2 + 1 : Int),
        scalePoly (1 / (env.getScalers im_id (mask.height, mask.width)).1)
          (1 / (env.getScalers im_id (mask.height, mask.width)).2)
          (env.maskToPolygons (channel mask p.1) epsilon)))
    (fun (a : List (Int × MultiPoly)) (q : Int × MultiPoly) => dictInsert a q.1 q.2)
    classes.enum ([] : List (Int × MultiPoly)))
  refine Eq.trans hfold.symm ?_
  refine Eq.trans (foldl_dictInsert _ [] ?_) (by simp)
  simp only [List.nil_append, List.map_map]
  have : ((fun q : Int × MultiPoly => q.1) ∘ fun p : Nat × Int =>
      ((p.2 + 1 : Int),
        scalePoly (1 / (env.getScalers im_id (mask.height, mask.width)).1)
          (1 / (env.getScalers im_id (mask.height, mask.width)).2)
          (env.maskToPolygons (channel mask p.1) epsilon))) =
      fun p : Nat × Int => p.2 + 1 := rfl
  rw [this, enum_keys_eq]
  exact hn.map (fun a b hab => by omega)

theorem scalePoly_one_div (sx sy : ℚ) (p : MultiPoly) :
    scalePoly (1 / sx) (1 / sy) p =
      p.map (List.map fun q => (q.1 / sx, q.2 / sy)) := by
  have hpt : (fun q : ℚ × ℚ => (q.1 * (1 / sx), q.2 * (1 / sy))) =
      fun q : ℚ × ℚ => (q.1 / sx, q.2 / sy) := by
    funext q
    rw [mul_one_div, mul_one_div]
  unfold scalePoly
  rw [hpt]

theorem get_polygons_isSome_iff (env : Env) (im_id : String)
    (mask : BooleanMask) (epsilon : ℚ) (classes : List Int) :
    (get_polygons env im_id mask epsilon classes).isSome ↔
      classes.length = mask.channels := by
  rw [get_polygons_def]
  by_cases h : classes.length = mask.channels <;> simp [h]

theorem gtRows_eq (im_id : String) (tp : List (Int × String))
    (classes : List Int)
    (h : ∀ cls ∈ classes, (List.lookup (cls + 1) tp).isSome) :
    gtRows im_id tp classes =
      some (classes.map fun cls =>
        (im_id, toString (cls + 1), (List.lookup (cls + 1) tp).get!)) := by
  induction classes with
  | nil => rfl
  | cons c cs ih =>
    have hc := h c (List.mem_cons_self _ _)
    obtain ⟨w, hw⟩ := Option.isSome_iff_exists.mp hc
    have ih2 := ih fun x hx => h x (List.mem_cons_of_mem _ hx)
    simp [gtRows, hw, ih2]

theorem insertByKey_of_lt {α : Type} (p : Int × α) (l : List (Int × α))
    (h : ∀ q ∈ l, p.1 < q.1) : insertByKey p l = p :: l := by
  cases l with
  | nil => rfl
  | cons q qs =>
    have := h q (List.mem_cons_self _ _)
    simp [insertByKey, le_of_lt this]

theorem sortByKey_of_sorted {α : Type} (l : List (Int × α))
    (h : l.Pairwise fun a b => a.1 < b.1) : sortByKey l = l := by
  induction l with
  | nil => rfl
  | cons p ps ih =>
    rcases List.pairwise_cons.mp h with ⟨hp, hps⟩
    rw [sortByKey, ih hps, insertByKey_of_lt p ps hp]

theorem get_poly_data_of_no_mask (env : Env)
    (store : String → Option ProbabilityMask) (im_id : String)
    (classes : List Int) (threshold epsilon : ℚ)
    (hs : store im_id = none) :
    get_poly_data env store im_id classes threshold epsilon =
      some (classes.map fun cls =>
        (im_id, toString (cls + 1), "MULTIPOLYGON EMPTY")) := by
  simp only [get_poly_data, hs]

theorem get_poly_data_of_mask (env : Env)
    (store : String → Option ProbabilityMask) (im_id : String)
    (classes : List Int) (threshold epsilon : ℚ)
    (pmask : ProbabilityMask) (pbt : List (Int × MultiPoly))
    (hs : store im_id = some pmask)
    (hg : get_polygons env im_id (booleanize pmask threshold) epsilon classes =
      some pbt) :
    get_poly_data env store im_id classes threshold epsilon =
      match env.wktData im_id with
      | some tp =>
        if tp = [] then
          some ((sortByKey pbt).map fun p =>
            (im_id, toString p.1, env.wktDumps p.2))
        else gtRows im_id tp classes
      | none =>
        some ((sortByKey pbt).map fun p =>
          (im_id, toString p.1, env.wktDumps p.2)) := by
  simp only [get_poly_data, hs, hg]

/-- C2: for every ImageId whose cached mask file is absent, the per-image
task returns exactly `len(classes)` rows, one per class, each with geometry
field equal to the literal string "MULTIPOLYGON EMPTY", and no
(ImageId, PolygonType) pair is omitted. -/
theorem missing_mask_empty_rows (env : Env)
    (store : String → Option ProbabilityMask) (im_id : String)
    (classes : List Int) (threshold epsilon : ℚ)
    (hs : store im_id = none) :
    ∃ rows, get_poly_data env store im_id classes threshold epsilon =
        some rows ∧
      rows = (classes.map fun cls =>
        (im_id, toString (cls + 1), "MULTIPOLYGON EMPTY")) ∧
      rows.length = classes.length ∧
      ∀ cls ∈ classes,
        (im_id, toString (cls + 1), "MULTIPOLYGON EMPTY") ∈ rows := by
  refine ⟨_, get_poly_data_of_no_mask env store im_id classes threshold epsilon hs,
    rfl, by simp, ?_⟩
  intro cls hc
  exact List.mem_map_of_mem _ hc

theorem missing_mask_empty_rows_witness :
    ∃ rows, get_poly_data envGT storeNone "a" [0, 1] (1 / 2) 5 = some rows ∧
      rows = (([0, 1] : List Int).map fun cls =>
        ("a", toString (cls + 1), "MULTIPOLYGON EMPTY")) ∧
      rows.length = ([0, 1] : List Int).length ∧
      ∀ cls ∈ ([0, 1] : List Int),
        ("a", toString (cls + 1), "MULTIPOLYGON EMPTY") ∈ rows :=
  missing_mask_empty_rows envGT storeNone "a" [0, 1] (1 / 2) 5 rfl

/-- C9: thresholding is strict: a stored probability becomes foreground in
the derived boolean mask exactly when it is strictly greater than the
threshold, so a pixel whose probability equals the threshold is classified
as background. -/
theorem booleanize_strict (m : ProbabilityMask) (t : ℚ) (i j k : Nat) :
    ((booleanize m t).data i j k = true ↔ t < m.data i j k) ∧
    (m.data i j k = t → (booleanize m t).data i j k = false) := by
  constructor
  · simp [booleanize]
  · intro h
    simp [booleanize, h]

theorem booleanize_strict_witness :
    (booleanize pm2 1).data 0 0 0 = false :=
  (booleanize_strict pm2 1 0 0 0).2 rfl

/-- C5: `get_polygons` succeeds exactly when the configured class list's
length equals the mask's channel count; on mismatch it aborts (assertion
failure, modelled by `none`) rather than coercing or recovering. -/
theorem get_polygons_channel_assertion (env : Env) (im_id : String)
    (mask : BooleanMask) (epsilon : ℚ) (classes : List Int) :
    (get_polygons env im_id mask epsilon classes).isSome ↔
      classes.length = mask.channels :=
  get_polygons_isSome_iff env im_id mask epsilon classes

/-- C4: scaling a pixel-space polygon by the inverse ScalerPair (as
extraction does) and then by the forward ScalerPair reproduces the original
coordinates exactly, for any nonzero scaler factors. -/
theorem scale_inverse_forward_roundtrip (sx sy : ℚ) (p : MultiPoly)
    (hx : sx ≠ 0) (hy : sy ≠ 0) :
    scalePoly sx sy (scalePoly (1 / sx) (1 / sy) p) = p := by
  have hpt : ∀ q : ℚ × ℚ,
      (fun q : ℚ × ℚ => (q.1 * sx, q.2 * sy))
        ((fun q : ℚ × ℚ => (q.1 * (1 / sx), q.2 * (1 / sy))) q) = q := by
    intro q
    simp only [one_div]
    rw [mul_assoc, mul_assoc, inv_mul_cancel₀ hx, inv_mul_cancel₀ hy,
      mul_one, mul_one]
  unfold scalePoly
  rw [List.map_map]
  refine List.map_id'' (fun r => ?_) p
  show List.map (fun q : ℚ × ℚ => (q.1 * sx, q.2 * sy))
      (List.map (fun q : ℚ × ℚ => (q.1 * (1 / sx), q.2 * (1 / sy))) r) = r
  rw [List.map_map]
  exact List.map_id'' hpt r

theorem scale_inverse_forward_roundtrip_witness :
    scalePoly 2 4 (scalePoly (1 / 2) (1 / 4) [[(5, 7)]]) = [[(5, 7)]] :=
  scale_inverse_forward_roundtrip 2 4 [[(5, 7)]] (by norm_num) (by norm_num)

/-- C1: for every image with a cached mask, `get_polygons` converts the
pixel-space polygon coordinates of every class to the geographic frame by
applying the reciprocal of the image's ScalerPair — each coordinate is
divided by the corresponding scaler factor, with scaling origin (0, 0). -/
theorem get_polygons_divides_by_scaler (env : Env) (im_id : String)
    (mask : BooleanMask) (epsilon : ℚ) (classes : List Int)
    (hn : classes.Nodup) (hc : classes.length = mask.channels) :
    get_polygons env im_id mask epsilon classes =
      some (classes.enum.map fun p =>
        (p.2 + 1,
          (env.maskToPolygons (channel mask p.1) epsilon).map
            (List.map fun q =>
              (q.1 / (env.getScalers im_id (mask.height, mask.width)).1,
               q.2 / (env.getScalers im_id (mask.height, mask.width)).2)))) := by
  rw [get_polygons_eq env im_id mask epsilon classes hn hc]
  congr 1
  have hfun : (fun p : Nat × Int =>
      ((p.2 + 1 : Int),
        scalePoly (1 / (env.getScalers im_id (mask.height, mask.width)).1)
          (1 / (env.getScalers im_id (mask.height, mask.width)).2)
          (env.maskToPolygons (channel mask p.1) epsilon))) =
      fun p : Nat × Int =>
        ((p.2 + 1 : Int),
          (env.maskToPolygons (channel mask p.1) epsilon).map
            (List.map fun q =>
              (q.1 / (env.getScalers im_id (mask.height, mask.width)).1,
               q.2 / (env.getScalers im_id (mask.height, mask.width)).2))) := by
    funext p
    rw [scalePoly_one_div]
  rw [hfun]

theorem get_polygons_divides_by_scaler_witness :
    get_polygons envGT "a" bm2 5 [0, 1] =
      some (([0, 1] : List Int).enum.map fun p =>
        (p.2 + 1,
          (envGT.maskToPolygons (channel bm2 p.1) 5).map
            (List.map fun q =>
              (q.1 / (envGT.getScalers "a" (bm2.height, bm2.width)).1,
               q.2 / (envGT.getScalers "a" (bm2.height, bm2.width)).2)))) :=
  get_polygons_divides_by_scaler envGT "a" bm2 5 [0, 1] (by decide) rfl

/-- C3: for every ImageId that has both a cached mask and a non-empty
ground-truth entry (with all class keys present), the returned rows carry
the ground-truth WKT strings verbatim per PolygonType, not the WKT of the
extracted predicted polygons. -/
theorem ground_truth_rows_verbatim (env : Env)
    (store : String → Option ProbabilityMask) (im_id : String)
    (classes : List Int) (threshold epsilon : ℚ)
    (pmask : ProbabilityMask) (tp : List (Int × String))
    (hs : store im_id = some pmask)
    (hc : classes.length = pmask.channels)
    (ht : env.wktData im_id = some tp)
    (hne : tp ≠ [])
    (hlk : ∀ cls ∈ classes, (List.lookup (cls + 1) tp).isSome) :
    get_poly_data env store im_id classes threshold epsilon =
      some (classes.map fun cls =>
        (im_id, toString (cls + 1), (List.lookup (cls + 1) tp).get!)) := by
  have hsome :
      (get_polygons env im_id (booleanize pmask threshold) epsilon
        classes).isSome := by
    rw [get_polygons_isSome_iff]
    exact hc
  obtain ⟨pbt, hpbt⟩ := Option.isSome_iff_exists.mp hsome
  rw [get_poly_data_of_mask env store im_id classes threshold epsilon pmask pbt
    hs hpbt]
  simp only [ht, if_neg hne]
  exact gtRows_eq im_id tp classes hlk

theorem ground_truth_rows_verbatim_witness :
    get_poly_data envGT storeAll "a" [0, 1] (1 / 2) 5 =
      some (([0, 1] : List Int).map fun cls =>
        ("a", toString (cls + 1),
          (List.lookup (cls + 1) [((1 : Int), "GTA"), (2, "GTB")]).get!)) :=
  ground_truth_rows_verbatim envGT storeAll "a" [0, 1] (1 / 2) 5 pm2
    [(1, "GTA"), (2, "GTB")] rfl rfl rfl (by simp) (by decide)

/-- C7: mask production is idempotent with respect to the cache: if the
store already holds a mask for an image id, rerunning the mask-production
loop performs no inference call for that id and leaves its stored mask
unchanged. -/
theorem maskPhase_skips_cached (predict : String → ProbabilityMask)
    (store : String → Option ProbabilityMask) (ids : List String)
    (im_id : String) (m : ProbabilityMask)
    (h : store im_id = some m) :
    (maskPhase predict store ids).1 im_id = some m ∧
      im_id ∉ (maskPhase predict store ids).2 := by
  induction ids generalizing store with
  | nil =>
    refine ⟨by simpa [maskPhase] using h, by simp [maskPhase]⟩
  | cons i rest ih =>
    cases hsi : store i with
    | some v =>
      have := ih store h
      simpa [maskPhase, hsi] using this
    | none =>
      have hne : im_id ≠ i := by
        intro he
        rw [he, hsi] at h
        exact Option.noConfusion h
      have h2 : (fun j => if j = i then some (predict i) else store j) im_id =
          some m := by
        simp [hne, h]
      have hrec := ih (fun j => if j = i then some (predict i) else store j) h2
      constructor
      · simpa [maskPhase, hsi] using hrec.1
      · have hmem : im_id ∉ i ::
            (maskPhase predict
              (fun j => if j = i then some (predict i) else store j) rest).2 := by
          rw [List.mem_cons]
          rintro (he | hin)
          · exact hne he
          · exact hrec.2 hin
        simpa [maskPhase, hsi] using hmem

theorem maskPhase_skips_cached_witness :
    (maskPhase (fun _ => pm2) storeAll ["a", "b"]).1 "a" = some pm2 ∧
      "a" ∉ (maskPhase (fun _ => pm2) storeAll ["a", "b"]).2 :=
  maskPhase_skips_cached (fun _ => pm2) storeAll ["a", "b"] "a" pm2 rfl

theorem mem_imageIdsFromSample (rows : List (String × String × String))
    (x : String) :
    x ∈ imageIdsFromSample rows ↔ ∃ g, (x, "1", g) ∈ rows := by
  unfold imageIdsFromSample
  rw [List.mem_filterMap]
  constructor
  · rintro ⟨⟨a, b, c⟩, hr, hfr⟩
    dsimp at hfr
    by_cases h1 : b = "1"
    · rw [if_pos h1] at hfr
      injection hfr with h2
      subst h1
      subst h2
      exact ⟨c, hr⟩
    · rw [if_neg h1] at hfr
      exact absurd hfr (by simp)
  · rintro ⟨g, hg⟩
    exact ⟨(x, "1", g), hg, by simp⟩

/-- C8: the target identifier set is resolved from exactly one of three
mutually exclusive modes — all ground-truth images when the train-only flag
is set, the explicitly named subset when one is given, and otherwise every
ImageId whose input-table row has ClassLabel "1" — and the resolved set
contains each identifier at most once. -/
theorem resolveTargets_modes (trainOnly : Bool) (only : List String)
    (trainIds : List String) (rows : List (String × String × String)) :
    (resolveTargets trainOnly only trainIds rows).Nodup ∧
    ∀ x : String, x ∈ resolveTargets trainOnly only trainIds rows ↔
      (if trainOnly then x ∈ trainIds
       else if only = [] then ∃ g, (x, "1", g) ∈ rows
       else x ∈ only) := by
  constructor
  · unfold resolveTargets
    by_cases h1 : trainOnly <;> by_cases h2 : only = [] <;>
      simp [h1, h2, List.nodup_dedup]
  · intro x
    unfold resolveTargets
    by_cases h1 : trainOnly <;> by_cases h2 : only = [] <;>
      simp [h1, h2, List.mem_dedup, mem_imageIdsFromSample]

/-- C6: for every ImageId with a cached mask (given the class list is
strictly ascending, as the data model's ClassIndex/PolygonType bijection
prescribes, and ground-truth lookups succeed when present), the per-image
task returns exactly `len(classes)` rows, one per class, whose PolygonType
column is `classes.map (· + 1)` rendered as strings — ascending — in both
the ground-truth-substitution branch and the prediction branch. -/
theorem rows_count_and_ascending (env : Env)
    (store : String → Option ProbabilityMask) (im_id : String)
    (classes : List Int) (threshold epsilon : ℚ) (pmask : ProbabilityMask)
    (hs : store im_id = some pmask)
    (hsorted : classes.Pairwise (· < ·))
    (hc : classes.length = pmask.channels)
    (hlk : ∀ tp, env.wktData im_id = some tp → tp ≠ [] →
      ∀ cls ∈ classes, (List.lookup (cls + 1) tp).isSome) :
    ∃ rows, get_poly_data env store im_id classes threshold epsilon =
        some rows ∧
      rows.length = classes.length ∧
      rows.map (fun r => r.2.1) = classes.map fun cls => toString (cls + 1) := by
  have hn : classes.Nodup := hsorted.imp fun h => ne_of_lt h
  have hg := get_polygons_eq env im_id (booleanize pmask threshold) epsilon
    classes hn hc
  have hred := get_poly_data_of_mask env store im_id classes threshold epsilon
    pmask _ hs hg
  have hpair : (classes.enum.map fun p : Nat × Int =>
      ((p.2 + 1 : Int),
        scalePoly
          (1 / (env.getScalers im_id
            ((booleanize pmask threshold).height,
             (booleanize pmask threshold).width)).1)
          (1 / (env.getScalers im_id
            ((booleanize pmask threshold).height,
             (booleanize pmask threshold).width)).2)
          (env.maskToPolygons (channel (booleanize pmask threshold) p.1)
            epsilon))).Pairwise
      (fun a b : Int × MultiPoly => a.1 < b.1) := by
    rw [List.pairwise_map]
    have h3 := hsorted
    rw [← List.enum_map_snd classes] at h3
    have h2 : classes.enum.Pairwise fun p q : Nat × Int => p.2 < q.2 :=
      List.pairwise_map.mp h3
    exact h2.imp fun h => by omega
  have hsort := sortByKey_of_sorted _ hpair
  have hlen : (((sortByKey (classes.enum.map fun p : Nat × Int =>
      ((p.2 + 1 : Int),
        scalePoly
          (1 / (env.getScalers im_id
            ((booleanize pmask threshold).height,
             (booleanize pmask threshold).width)).1)
          (1 / (env.getScalers im_id
            ((booleanize pmask threshold).height,
             (booleanize pmask threshold).width)).2)
          (env.maskToPolygons (channel (booleanize pmask threshold) p.1)
            epsilon)))).map fun p =>
        (im_id, toString p.1, env.wktDumps p.2)).length) = classes.length := by
    rw [hsort]
    simp [List.enum_length]
  have hcol : ((sortByKey (classes.enum.map fun p : Nat × Int =>
      ((p.2 + 1 : Int),
        scalePoly
          (1 / (env.getScalers im_id
            ((booleanize pmask threshold).height,
             (booleanize pmask threshold).width)).1)
          (1 / (env.getScalers im_id
            ((booleanize pmask threshold).height,
             (booleanize pmask threshold).width)).2)
          (env.maskToPolygons (channel (booleanize pmask threshold) p.1)
            epsilon)))).map fun p =>
        (im_id, toString p.1, env.wktDumps p.2)).map (fun r => r.2.1) =
      classes.map fun cls => toString (cls + 1) := by
    rw [hsort, List.map_map, List.map_map]
    have hfin : classes.enum.map
        ((fun c : Int => toString (c + 1)) ∘ Prod.snd) =
        classes.map fun c : Int => toString (c + 1) := by
      rw [← List.map_map, List.enum_map_snd]
    exact hfin
  cases henv : env.wktData im_id with
  | none =>
    refine ⟨_, ?_, hlen, hcol⟩
    rw [hred]
    simp only [henv]
  | some tp =>
    by_cases htp : tp = []
    · refine ⟨_, ?_, hlen, hcol⟩
      rw [hred]
      simp only [henv, if_pos htp]
    · have hg2 := gtRows_eq im_id tp classes (hlk tp henv htp)
      refine ⟨classes.map fun cls =>
          (im_id, toString (cls + 1), (List.lookup (cls + 1) tp).get!),
        ?_, ?_, ?_⟩
      · rw [hred]
        simp only [henv, if_neg htp]
        exact hg2
      · simp
      · rw [List.map_map]
        rfl

theorem rows_count_and_ascending_witness :
    ∃ rows, get_poly_data envGT storeAll "a" [0, 1] (1 / 2) 5 = some rows ∧
      rows.length = ([0, 1] : List Int).length ∧
      rows.map (fun r => r.2.1) =
        ([0, 1] : List Int).map fun cls => toString (cls + 1) :=
  rows_count_and_ascending envGT storeAll "a" [0, 1] (1 / 2) 5 pm2 rfl
    (by decide) rfl
    (by
      intro tp htp _ cls hcls
      have h0 : envGT.wktData "a" = some [(1, "GTA"), (2, "GTB")] := rfl
      rw [h0] at htp
      injection htp with h1
      subst h1
      fin_cases hcls <;> decide)

/-- C10: for a class list entry at position `i` with value `c`, the
extractor reads mask channel `i` but labels the result with PolygonType
`c + 1`, and the ground-truth branch likewise looks up key `c + 1`; the
positional channel index and the value-derived PolygonType correspond
(entry value = entry position) exactly when the class list is
`[0, 1, ..., n-1]`. -/
theorem channel_index_vs_poly_type (env : Env) (im_id : String)
    (mask : BooleanMask) (epsilon : ℚ) (classes : List Int)
    (tp : List (Int × String))
    (hn : classes.Nodup) (hc : classes.length = mask.channels) :
    (get_polygons env im_id mask epsilon classes =
      some (classes.enum.map fun p =>
        (p.2 + 1,
          scalePoly (1 / (env.getScalers im_id (mask.height, mask.width)).1)
            (1 / (env.getScalers im_id (mask.height, mask.width)).2)
            (env.maskToPolygons (channel mask p.1) epsilon)))) ∧
    ((∀ cls ∈ classes, (List.lookup (cls + 1) tp).isSome) →
      gtRows im_id tp classes =
        some (classes.map fun cls =>
          (im_id, toString (cls + 1), (List.lookup (cls + 1) tp).get!))) ∧
    ((∀ p ∈ classes.enum, (p.1 : Int) = p.2) ↔
      classes = (List.range classes.length).map Int.ofNat) := by
  refine ⟨get_polygons_eq env im_id mask epsilon classes hn hc,
    gtRows_eq im_id tp classes, ?_⟩
  rw [List.forall_mem_enum]
  constructor
  · intro hcor
    apply List.ext_getElem
    · simp
    · intro i h1 h2
      simp only [List.getElem_map, List.getElem_range]
      exact (hcor i h1).symm
  · intro h i hi
    have hgi := List.getElem_of_eq h hi
    simp only [List.getElem_map, List.getElem_range] at hgi
    exact hgi.symm

theorem channel_index_vs_poly_type_witness :
    (get_polygons envGT "a" bm2 5 [0, 1] =
      some (([0, 1] : List Int).enum.map fun p =>
        (p.2 + 1,
          scalePoly (1 / (envGT.getScalers "a" (bm2.height, bm2.width)).1)
            (1 / (envGT.getScalers "a" (bm2.height, bm2.width)).2)
            (envGT.maskToPolygons (channel bm2 p.1) 5)))) ∧
    ((∀ cls ∈ ([0, 1] : List Int),
        (List.lookup (cls + 1) [((1 : Int), "GTA"), (2, "GTB")]).isSome) →
      gtRows "a" [((1 : Int), "GTA"), (2, "GTB")] [0, 1] =
        some (([0, 1] : List Int).map fun cls =>
          ("a", toString (cls + 1),
            (List.lookup (cls + 1) [((1 : Int), "GTA"), (2, "GTB")]).get!))) ∧
    ((∀ p ∈ ([0, 1] : List Int).enum, (p.1 : Int) = p.2) ↔
      ([0, 1] : List Int) =
        (List.range ([0, 1] : List Int).length).map Int.ofNat) :=
  channel_index_vs_poly_type envGT "a" bm2 5 [0, 1]
    [(1, "GTA"), (2, "GTB")] (by decide) rfl
